import Mathlib

/-!
Verification of the videoparquet codec-adapter pipeline.

The definitions below are a shallow embedding of the repository's Python
sources.  Samples and value ranges are modelled over `ℚ` (the idealised
arithmetic of the numpy float operations), quantized outputs over `ℤ`,
byte buffers as total functions `ℕ → ℕ`, and `(T, H, W, C)` tensors as
total functions of their four indices.  Fallible code is modelled with
`Except`; numpy dtypes by a small enumeration.
-/

namespace Videoparquet

/-- Model of `np.clip(scaled, 0, 1)` as used in `utils.normalize`. -/
def clip01 (q : ℚ) : ℚ := min (max q 0) 1

/-- Embedding of `utils.normalize(array, minmax, bits)` for a single sample:
`scaled = (x - min) / (max - min)`, clipped to `[0, 1]`, multiplied by
`2 ** bits - 1` and converted with `astype`, which truncates toward zero;
the clipped operand is nonnegative, so the conversion is `Int.floor`. -/
def normalize (x minv maxv : ℚ) (bits : ℕ) : ℤ :=
  ⌊clip01 ((x - minv) / (maxv - minv)) * ((2 : ℚ) ^ bits - 1)⌋

/-- Embedding of `utils.denormalize(array, minmax, bits)` for a single
sample: `array / (2 ** bits - 1) * (max - min) + min`. -/
def denormalize (q : ℤ) (minv maxv : ℚ) (bits : ℕ) : ℚ :=
  (q : ℚ) / ((2 : ℚ) ^ bits - 1) * (maxv - minv) + minv

/-- Reference quantizer written from the spec's words: affine-rescale,
clip to `[0, 1]`, scale to `[0, 2 ^ bits - 1]` and round to the nearest
representable unsigned integer; for `min = max` the output is the domain
minimum `0`. -/
def normalizeSpecRound (x minv maxv : ℚ) (bits : ℕ) : ℤ :=
  if minv = maxv then 0
  else round (clip01 ((x - minv) / (maxv - minv)) * ((2 : ℚ) ^ bits - 1))

/-- Truncating reference quantizer, phrased as the spec phrases the scaling
(clip the scaled sample to the target domain `[0, 2 ^ bits - 1]`), but with
truncation toward zero in place of rounding. -/
def normalizeSpecTrunc (x minv maxv : ℚ) (bits : ℕ) : ℤ :=
  ⌊min ((2 : ℚ) ^ bits - 1) (max 0 ((x - minv) * ((2 : ℚ) ^ bits - 1) / (maxv - minv)))⌋

/-- Minimal model of the numpy dtypes that reach the raw-frame writer. -/
inductive NpDtype
  | uint8
  | uint16
  | float32
  deriving DecidableEq

/-- Output dtype of `utils.normalize`:
`astype(np.uint16 if bits > 8 else np.uint8)`. -/
def normalizeOutDtype (bits : ℕ) : NpDtype :=
  if 8 < bits then NpDtype.uint16 else NpDtype.uint8

/-- The two assertions guarding `ffmpeg_wrappers._ffmpeg_write`:
`array.dtype == np.uint8` and `array.shape[-1] == 3`. -/
def ffmpeg_write_accepts (d : NpDtype) (lastDim : ℕ) : Bool :=
  decide (d = NpDtype.uint8) && decide (lastDim = 3)

/-- Dtype of the array handed to the writer by `parquet2video`: quantized
jobs carry the dtype produced by `normalize` (channel padding concatenates
zeros of the same dtype), unquantized jobs keep the source dtype. -/
def jobArrayDtype (quantized : Bool) (bits : ℕ) (srcDtype : NpDtype) : NpDtype :=
  if quantized then normalizeOutDtype bits else srcDtype

/-- Outcome of the pixel-format verification inside
`ffmpeg_wrappers._ffmpeg_write` (lines 46-52). -/
inductive WriteCheck
  | ok
  | warned
  | unsupported
  deriving DecidableEq

/-- Embedding of the probe check in `_ffmpeg_write`: for `ffv1`, `gbrp`
passes, `bgr0` passes with a printed warning, anything else raises. -/
def ffmpeg_write_check (vcodec actual : String) : WriteCheck :=
  if vcodec = "ffv1" then
    if actual = "gbrp" then WriteCheck.ok
    else if actual = "bgr0" then WriteCheck.warned
    else WriteCheck.unsupported
  else WriteCheck.ok

/-- Embedding of the second probe in `parquet2video` (lines 104-106):
`true` when it raises, i.e. when the codec is `ffv1` and the actual pixel
format is not `gbrp`. -/
def parquet2video_pixfmt_raises (vcodec actual : String) : Bool :=
  decide (vcodec = "ffv1") && !(decide (actual = "gbrp"))

/-- The encode pipeline's pixel-format gate: encoding completes exactly
when the writer does not raise and the orchestrator's re-check does not
raise. -/
def encode_pixfmt_succeeds (vcodec actual : String) : Bool :=
  !(decide (ffmpeg_write_check vcodec actual = WriteCheck.unsupported))
    && !(parquet2video_pixfmt_raises vcodec actual)

/-- A `(T, H, W, C)` byte tensor, total over its four indices. -/
abbrev ByteTensor := ℕ → ℕ → ℕ → ℕ → ℕ

/-- Channel packing in `parquet2video` (lines 84-89): when the trailing
channel count is below 3, zero channels are concatenated up to 3;
otherwise the array is left untouched. -/
def pad_channels (C : ℕ) (x : ByteTensor) : ByteTensor :=
  if C < 3 then (fun t h w c => if c < C then x t h w c else 0) else x

/-- Byte stream piped into the raw-frame writer: `array.tobytes()` on a
row-major `(T, H, W, 3)` tensor, declared to the engine as packed `rgb24`
(`_ffmpeg_write` lines 28 and 34). -/
def rgb24_write_bytes (H W : ℕ) (x : ByteTensor) : ℕ → ℕ :=
  fun i => x (i / (3 * W * H)) (i / (3 * W) % H) (i / 3 % W) (i % 3)

/-- Modelled from the spec: the external codec engine (absent from the
sources) losslessly stores the piped packed `rgb24` pixels and, when the
decode side requests the planar `gbrp` format (`_ffmpeg_read` line 82),
returns the raw frame stream in that planar layout - per frame a G plane,
then a B plane, then an R plane of `H * W` row-major bytes each, the
spec's "decode reads the raw frame stream from the engine directly in
that layout". -/
def gbrp_from_rgb24 (H W : ℕ) (buf : ℕ → ℕ) : ℕ → ℕ :=
  fun i =>
    let t := i / (3 * H * W)
    let p := i % (3 * H * W) / (H * W)
    let r := i % (3 * H * W) % (H * W)
    buf (((t * H + r / W) * W + r % W) * 3 + (p + 1) % 3)

/-- The `gbrp` branch of `ffmpeg_wrappers._ffmpeg_read` (lines 77-87):
`np.frombuffer` followed by `reshape((num_frames, height, width, 3))`. -/
def gbrp_read_tensor (H W : ℕ) (buf : ℕ → ℕ) : ByteTensor :=
  fun t h w c => buf (((t * H + h) * W + w) * 3 + c)

/-- Data carried by the buffer-size-mismatch failure of the `bgr0` decode
branch: the observed size and the three candidate sizes, in the order the
source's error message reports them. -/
structure BufferSizeMismatch where
  observed : ℕ
  packed4 : ℕ
  strided : ℕ
  packed3 : ℕ
  deriving DecidableEq

/-- Row stride as the source computes it:
`((width * 4 + 15) // 16) * 16`. -/
def rowStrideSrc (W : ℕ) : ℕ := ((W * 4 + 15) / 16) * 16

/-- Row stride as the spec phrases it: `width * 4` bytes, 16-byte aligned
(rounded up to the next multiple of 16). -/
def align16 (n : ℕ) : ℕ := n + (16 - n % 16) % 16

/-- Embedding of the `bgr0` branch of `_ffmpeg_read` (lines 88-121) on a
raw buffer of `size` bytes: tightly packed 4-channel, 16-byte-aligned
strided rows, or packed 3-channel, in that order; each successful branch
drops the padding channel (where present) and reverses the channel order;
otherwise the buffer-size-mismatch failure is raised. -/
def ffmpeg_read_bgr0 (size : ℕ) (buf : ℕ → ℕ) (T H W : ℕ) :
    Except BufferSizeMismatch ByteTensor :=
  if size = T * H * W * 4 then
    Except.ok (fun t h w c => buf (((t * H + h) * W + w) * 4 + (2 - c)))
  else if size = T * H * rowStrideSrc W then
    Except.ok (fun t h w c => buf ((t * H + h) * rowStrideSrc W + (w * 4 + (2 - c))))
  else if size = T * H * W * 3 then
    Except.ok (fun t h w c => buf (((t * H + h) * W + w) * 3 + (2 - c)))
  else
    Except.error ⟨size, T * H * W * 4, T * H * rowStrideSrc W, T * H * W * 3⟩

/-- The `bgr0` decode case analysis written from the spec's words: (a) a
buffer of exactly `T*H*W*4` bytes is reshaped to `(T, H, W, 4)`, the 4th
(padding) channel dropped and the channel order reversed; (b) else, with
the row stride implied by 16-byte alignment of `width * 4` bytes, the
first `width * 4` bytes of each row are sliced, reshaped per-row into
pixels, the padding channel dropped and the channel order reversed;
(c) else a buffer of the packed 3-channel size is treated as packed with
the channel order reversed; otherwise the decode fails reporting the
observed size and the three sizes considered. -/
def bgr0_decode_spec (size : ℕ) (buf : ℕ → ℕ) (T H W : ℕ) :
    Except BufferSizeMismatch ByteTensor :=
  if size = T * H * W * 4 then
    Except.ok (fun t h w c => buf (((t * H + h) * W + w) * 4 + (2 - c)))
  else if size = T * H * align16 (W * 4) then
    Except.ok (fun t h w c => buf ((t * H + h) * align16 (W * 4) + (w * 4 + (2 - c))))
  else if size = T * H * W * 3 then
    Except.ok (fun t h w c => buf (((t * H + h) * W + w) * 3 + (2 - c)))
  else
    Except.error ⟨size, T * H * W * 4, T * H * align16 (W * 4), T * H * W * 3⟩

/-- Column fixing in `video2parquet` (lines 52-63), acting on one row of
the flattened reconstruction: pad with zeros when short, truncate when
long, and report (second component) whether a warning was printed. -/
def fix_columns_row (ncols : ℕ) (row : List ℚ) : List ℚ × Bool :=
  if row.length < ncols then (row ++ List.replicate (ncols - row.length) 0, true)
  else if ncols < row.length then (row.take ncols, true)
  else (row, false)

/-- The quantization decision of `parquet2video` (lines 78-79): the source
is floating point, or an integer dtype of `itemBits` bits that is wider
than the target and whose maximum exceeds `2 ** bits - 1`. -/
def needs_quantization (isFloatDtype : Bool) (itemBits bits : ℕ) (dataMax : ℚ) : Bool :=
  isFloatDtype || (decide (bits < itemBits) && decide ((2 : ℚ) ^ bits - 1 < dataMax))

/-- The value range that reaches metadata construction in `parquet2video`
(lines 80-83): computed from the data as `[nanmin, nanmax]` only when the
job is quantized and no range was supplied; unquantized jobs keep the
supplied option unchanged (possibly `none`, on which the later
`list(map(float, value_range))` fails). -/
def choose_value_range (normalized : Bool) (vr : Option (ℚ × ℚ)) (dmin dmax : ℚ) :
    Option (ℚ × ℚ) :=
  if normalized then some (vr.getD (dmin, dmax)) else vr

/-- Concrete example tensor used by witness statements. -/
def exTensor : ByteTensor := fun t h w c => t + 7 * h + 11 * w + 3 * c + 1

/-- Concrete single-frame, single-pixel tensor with RGB value
`(10, 20, 30)`. -/
def exPixel : ByteTensor := fun _ _ _ c => 10 * (c + 1)

/-- C1: the certified-lossless path evaluated at a concrete failing
input.  A single 1-by-1 frame with RGB pixel `(10, 20, 30)` is packed to
3 channels and piped as packed `rgb24` bytes; the engine, modelled from
the spec, returns the decode stream in the requested planar `gbrp` layout
(planes `[20, 30, 10]`); the interleaved reshape of `_ffmpeg_read`
(line 86) then reads channel 0 as `20` instead of the original `10`, so
the decode pipeline does not reproduce the tensor.  (Independently, the
decode entry point `video2parquet` calls `_ffmpeg_read` with a mismatched
signature - no `width`, `height`, `num_frames`, an unknown `loglevel`
keyword, and a pair unpacked from a single return value - so every decode
raises before even reaching this branch.) -/
theorem gbrp_roundtrip_scrambles :
    gbrp_read_tensor 1 1
        (gbrp_from_rgb24 1 1 (rgb24_write_bytes 1 1 (pad_channels 3 exPixel))) 0 0 0 0
      = 20
    ∧ exPixel 0 0 0 0 = 10
    ∧ gbrp_read_tensor 1 1
        (gbrp_from_rgb24 1 1 (rgb24_write_bytes 1 1 (pad_channels 3 exPixel))) 0 0 0 0
      ≠ exPixel 0 0 0 0 := by
  refine ⟨rfl, rfl, by decide⟩

/-- C2: the `bgr0` decode branch of `_ffmpeg_read` coincides with the
spec's case analysis: size `T*H*W*4` is reshaped with the padding channel
dropped and channels reversed; else a buffer matching the 16-byte-aligned
row stride is decoded row by row the same way; else the packed 3-channel
size is decoded with channels reversed; otherwise the decode fails with
the observed size and the three candidate sizes. -/
theorem ffmpeg_read_bgr0_matches_spec (size : ℕ) (buf : ℕ → ℕ) (T H W : ℕ) :
    ffmpeg_read_bgr0 size buf T H W = bgr0_decode_spec size buf T H W := by
  have hstride : align16 (W * 4) = rowStrideSrc W := by
    unfold align16 rowStrideSrc
    omega
  unfold ffmpeg_read_bgr0 bgr0_decode_spec
  rw [hstride]

/-- C3 counterexample: with the `ffv1` codec and probed actual format
`bgr0`, the raw-frame writer only warns, yet the encode pipeline does not
complete (the orchestrator's re-check raises for every actual format
other than `gbrp`), so the claim that encoding completes on the `bgr0`
fallback is false. -/
theorem encode_bgr0_pipeline_fails :
    ffmpeg_write_check "ffv1" "bgr0" = WriteCheck.warned
      ∧ encode_pixfmt_succeeds "ffv1" "bgr0" = false := by
  constructor <;> rfl

/-- C3 (amended): for `ffv1`, the raw-frame writer fails exactly when the
actual format is neither `gbrp` nor `bgr0` (warning only in the `bgr0`
case), but the encode pipeline as a whole succeeds exactly when the
actual format is `gbrp`. -/
theorem encode_pixfmt_policy (actual : String) :
    (ffmpeg_write_check "ffv1" actual = WriteCheck.unsupported
      ↔ (actual ≠ "gbrp" ∧ actual ≠ "bgr0"))
    ∧ (ffmpeg_write_check "ffv1" actual = WriteCheck.warned ↔ actual = "bgr0")
    ∧ (encode_pixfmt_succeeds "ffv1" actual = true ↔ actual = "gbrp") := by
  by_cases h1 : actual = "gbrp"
  · subst h1
    refine ⟨by simp [ffmpeg_write_check], ?_, by decide⟩
    simp only [ffmpeg_write_check, if_pos rfl]
    constructor
    · intro hcon
      exact absurd hcon (by decide)
    · intro hcon
      exact absurd hcon (by decide)
  · by_cases h2 : actual = "bgr0"
    · subst h2
      refine ⟨?_, ?_, ?_⟩
      · simp [ffmpeg_write_check]
      · simp [ffmpeg_write_check]
      · simp only [encode_pixfmt_succeeds, parquet2video_pixfmt_raises]
        constructor
        · intro hcon
          simp [ffmpeg_write_check] at hcon
        · intro hcon
          exact absurd hcon (by decide)
    · refine ⟨?_, ?_, ?_⟩
      · simp [ffmpeg_write_check, h1, h2]
      · simp [ffmpeg_write_check, h1, h2]
      · simp [encode_pixfmt_succeeds, parquet2video_pixfmt_raises, ffmpeg_write_check,
          h1, h2]

/-- C7: channel packing then cropping is the identity: for `C ≤ 3`, every
in-range sample survives packing unchanged, the appended channels up to 3
are zero, and packing is a no-op when `C = 3`. -/
theorem pad_channels_inverse (Cc : ℕ) (x : ByteTensor) (hC : Cc ≤ 3) :
    (∀ t h w c, c < Cc → pad_channels Cc x t h w c = x t h w c)
    ∧ (∀ t h w c, Cc ≤ c → c < 3 → pad_channels Cc x t h w c = 0)
    ∧ (Cc = 3 → pad_channels Cc x = x) := by
  unfold pad_channels
  refine ⟨?_, ?_, ?_⟩
  · intro t h w c hc
    by_cases h3 : Cc < 3
    · rw [if_pos h3, if_pos hc]
    · rw [if_neg h3]
  · intro t h w c hge hlt
    have h3 : Cc < 3 := Nat.lt_of_le_of_lt hge hlt
    rw [if_pos h3, if_neg (by omega)]
  · intro h3
    subst h3
    rw [if_neg (by omega)]

/-- C7 witness: packing a 2-channel tensor preserves its samples and fills
the third channel with zero; cropping back to 2 channels recovers it. -/
theorem pad_channels_inverse_witness :
    pad_channels 2 exTensor 0 0 0 1 = exTensor 0 0 0 1
      ∧ pad_channels 2 exTensor 0 0 0 2 = 0 :=
  ⟨(pad_channels_inverse 2 exTensor (by decide)).1 0 0 0 1 (by decide),
    (pad_channels_inverse 2 exTensor (by decide)).2.1 0 0 0 2 (by decide) (by decide)⟩

/-- C10: the raw-frame writer's assertions accept exactly uint8 arrays
with 3 trailing channels; `normalize` at bit depth 16 produces uint16, so
a quantized 16-bit job is rejected by the writer for every channel count
and 16-bit encoding never succeeds end-to-end. -/
theorem ffmpeg_write_rejects_16bit :
    (∀ (d : NpDtype) (ch : ℕ),
        ffmpeg_write_accepts d ch = true ↔ (d = NpDtype.uint8 ∧ ch = 3))
    ∧ normalizeOutDtype 16 = NpDtype.uint16
    ∧ (∀ (srcD : NpDtype) (ch : ℕ),
        ffmpeg_write_accepts (jobArrayDtype true 16 srcD) ch = false) := by
  refine ⟨?_, rfl, ?_⟩
  · intro d ch
    simp [ffmpeg_write_accepts]
  · intro srcD ch
    simp [ffmpeg_write_accepts, jobArrayDtype, normalizeOutDtype]

/-- C4 counterexample: at `x = 1`, range `[0, 4]`, bit depth 8 the scaled
sample is `63.75`; `normalize` truncates to `63` while the spec's
round-to-nearest reference yields `64`, so the claimed equality fails. -/
theorem normalize_truncates_not_rounds :
    normalize 1 0 4 8 = 63 ∧ normalizeSpecRound 1 0 4 8 = 64 := by
  constructor
  · unfold normalize clip01
    norm_num
  · unfold normalizeSpecRound clip01
    norm_num [round_eq]

/-- C4 (amended): `normalize` equals the reference definition with
truncation toward zero in place of round-to-nearest (equivalently, floor
of the sample affinely rescaled and clipped to `[0, 2 ^ bits - 1]`); and
when `min = max` the output is `0` for all samples (in this model the
affine rescale's division by zero is the total division, yielding `0`). -/
theorem normalize_eq_trunc_spec (x minv maxv : ℚ) (bits : ℕ) :
    normalize x minv maxv bits = normalizeSpecTrunc x minv maxv bits
      ∧ (minv = maxv → normalize x minv maxv bits = 0) := by
  have hM : (0 : ℚ) ≤ (2 : ℚ) ^ bits - 1 := by
    have h2 : (1 : ℕ) ≤ 2 ^ bits := Nat.one_le_two_pow
    have h2q : (1 : ℚ) ≤ (2 : ℚ) ^ bits := by exact_mod_cast h2
    linarith
  constructor
  · unfold normalize normalizeSpecTrunc clip01
    congr 1
    rw [mul_div_right_comm, min_mul_of_nonneg _ _ hM, max_mul_of_nonneg _ _ hM,
      one_mul, zero_mul, min_comm, max_comm]
  · intro h
    subst h
    unfold normalize clip01
    rw [sub_self, div_zero]
    norm_num

/-- C4 witness: the amended equality and the `min = max` clause evaluated
at concrete inputs. -/
theorem normalize_eq_trunc_spec_witness :
    normalize 1 0 4 8 = normalizeSpecTrunc 1 0 4 8 ∧ normalize 5 2 2 8 = 0 :=
  ⟨(normalize_eq_trunc_spec 1 0 4 8).1, (normalize_eq_trunc_spec 5 2 2 8).2 rfl⟩

/-- C5: for bit depths 8 and 16, ranges with `min < max` and samples inside
the range, denormalizing the normalized sample lands within one
quantization step `(max - min) / (2 ^ bits - 1)` of the sample. -/
theorem denormalize_normalize_close (x minv maxv : ℚ) (bits : ℕ)
    (hbits : bits = 8 ∨ bits = 16) (hlt : minv < maxv) (hx0 : minv ≤ x)
    (hx1 : x ≤ maxv) :
    |denormalize (normalize x minv maxv bits) minv maxv bits - x|
      ≤ (maxv - minv) / ((2 : ℚ) ^ bits - 1) := by
  have hM : (1 : ℚ) ≤ (2 : ℚ) ^ bits - 1 := by
    rcases hbits with h | h <;> subst h <;> norm_num
  have hM0 : (0 : ℚ) < (2 : ℚ) ^ bits - 1 := by linarith
  have hd : (0 : ℚ) < maxv - minv := by linarith
  set M : ℚ := (2 : ℚ) ^ bits - 1 with hMdef
  set s : ℚ := (x - minv) / (maxv - minv) with hs
  have hs0 : 0 ≤ s := div_nonneg (by linarith) (le_of_lt hd)
  have hs1 : s ≤ 1 := by
    rw [hs, div_le_one hd]
    linarith
  have hclip : clip01 s = s := by
    unfold clip01
    rw [max_eq_left hs0, min_eq_left hs1]
  have hnorm : normalize x minv maxv bits = ⌊s * M⌋ := by
    unfold normalize
    rw [← hs, ← hMdef, hclip]
  have hq1 : ((⌊s * M⌋ : ℤ) : ℚ) ≤ s * M := Int.floor_le _
  have hq2 : s * M - 1 < ((⌊s * M⌋ : ℤ) : ℚ) := Int.sub_one_lt_floor _
  have hxs : x - minv = s * (maxv - minv) := by
    rw [hs, div_mul_cancel₀ _ (ne_of_gt hd)]
  unfold denormalize
  rw [hnorm, ← hMdef]
  have key : ((⌊s * M⌋ : ℤ) : ℚ) / M * (maxv - minv) + minv - x
      = (((⌊s * M⌋ : ℤ) : ℚ) - s * M) * (maxv - minv) / M := by
    field_simp
    nlinarith [hxs]
  rw [key, abs_div, abs_of_pos hM0, abs_mul, abs_of_pos hd,
    div_le_div_iff₀ hM0 hM0]
  have habs : |((⌊s * M⌋ : ℤ) : ℚ) - s * M| ≤ 1 := by
    rw [abs_le]
    constructor <;> linarith
  have hfin := mul_le_mul_of_nonneg_right habs (mul_nonneg hd.le hM0.le)
  nlinarith [hfin]

/-- C5 witness: the bound evaluated at `x = 1/2` over `[0, 1]` at bit
depth 8. -/
theorem denormalize_normalize_close_witness :
    |denormalize (normalize (1 / 2) 0 1 8) 0 1 8 - 1 / 2|
      ≤ ((1 : ℚ) - 0) / ((2 : ℚ) ^ 8 - 1) :=
  denormalize_normalize_close (1 / 2) 0 1 8 (Or.inl rfl) (by norm_num) (by norm_num)
    (by norm_num)

/-- C6 counterexample: with the reversed range `min = 1 > max = 0` at
`x = 1/2`, `normalize` raises nothing and returns the value `127`, so the
claim that it fails with `InvalidRangeError` whenever `max < min` is
false (the source contains no such check). -/
theorem normalize_reversed_range_returns : normalize (1 / 2) 1 0 8 = 127 := by
  unfold normalize clip01
  norm_num

/-- C6 (amended): `normalize` performs no range validation; when
`max < min` it raises no error and, for samples between `max` and `min`,
returns the floor of the mirrored rescale `(min - x) / (min - max)` scaled
by `2 ^ bits - 1`. -/
theorem normalize_reversed_range_mirrors (x minv maxv : ℚ) (bits : ℕ)
    (hrev : maxv < minv) (h1 : maxv ≤ x) (h2 : x ≤ minv) :
    normalize x minv maxv bits
      = ⌊(minv - x) / (minv - maxv) * ((2 : ℚ) ^ bits - 1)⌋ := by
  have hd : (0 : ℚ) < minv - maxv := by linarith
  have hmirror : (x - minv) / (maxv - minv) = (minv - x) / (minv - maxv) := by
    rw [show maxv - minv = -(minv - maxv) by ring, show x - minv = -(minv - x) by ring,
      neg_div_neg_eq]
  have hs0 : 0 ≤ (minv - x) / (minv - maxv) := div_nonneg (by linarith) (le_of_lt hd)
  have hs1 : (minv - x) / (minv - maxv) ≤ 1 := by
    rw [div_le_one hd]
    linarith
  unfold normalize clip01
  rw [hmirror, max_eq_left hs0, min_eq_left hs1]

/-- C6 witness: the mirrored formula evaluated at `x = 1/4` with the
reversed range `min = 1 > max = 0` at bit depth 8. -/
theorem normalize_reversed_range_mirrors_witness :
    normalize (1 / 4) 1 0 8 = ⌊((1 : ℚ) - 1 / 4) / (1 - 0) * ((2 : ℚ) ^ 8 - 1)⌋ :=
  normalize_reversed_range_mirrors (1 / 4) 1 0 8 (by norm_num) (by norm_num)
    (by norm_num)

theorem replicate_getD_zero (n m : ℕ) : (List.replicate n (0 : ℚ)).getD m 0 = 0 := by
  induction n generalizing m with
  | zero => simp
  | succ k ih =>
    cases m with
    | zero => simp [List.replicate]
    | succ m' =>
      simp only [List.replicate, List.getD_cons_succ]
      exact ih m'

theorem take_getD (l : List ℚ) (n j : ℕ) (h : j < n) :
    (l.take n).getD j 0 = l.getD j 0 := by
  induction l generalizing n j with
  | nil => simp
  | cons a tl ih =>
    cases n with
    | zero => omega
    | succ k =>
      cases j with
      | zero => simp
      | succ j' => simpa using ih k j' (by omega)

/-- C8: the column fixing of `video2parquet` always yields exactly the
manifest's column count: short rows are zero-padded, long rows truncated,
entries below both widths are preserved, a warning is reported exactly on
a mismatch, and no branch fails. -/
theorem fix_columns_row_spec (ncols : ℕ) (row : List ℚ) :
    (fix_columns_row ncols row).1.length = ncols
    ∧ (∀ j, j < ncols → (fix_columns_row ncols row).1.getD j 0
        = if j < row.length then row.getD j 0 else 0)
    ∧ ((fix_columns_row ncols row).2 = true ↔ row.length ≠ ncols) := by
  rcases Nat.lt_trichotomy row.length ncols with h | h | h
  · rw [fix_columns_row, if_pos h]
    refine ⟨by simp; omega, ?_, by simp; omega⟩
    intro j hj
    by_cases hjr : j < row.length
    · rw [if_pos hjr, List.getD_append _ _ _ _ hjr]
    · rw [if_neg hjr, List.getD_append_right _ _ _ _ (by omega), replicate_getD_zero]
  · rw [fix_columns_row, if_neg (by omega), if_neg (by omega)]
    refine ⟨h, ?_, by simp [h]⟩
    intro j hj
    rw [if_pos (by omega)]
  · rw [fix_columns_row, if_neg (by omega), if_pos h]
    refine ⟨by simp; omega, ?_, by simp; omega⟩
    intro j hj
    rw [if_pos (by omega), take_getD _ _ _ hj]

/-- C8 witness: a two-entry row against a three-column manifest is padded
to length 3, keeps its entries, gets a zero in the new column, and warns. -/
theorem fix_columns_row_spec_witness :
    (fix_columns_row 3 [(5 : ℚ), 7]).1.length = 3
      ∧ (fix_columns_row 3 [(5 : ℚ), 7]).1.getD 2 0 = 0
      ∧ ((fix_columns_row 3 [(5 : ℚ), 7]).2 = true ↔ ([(5 : ℚ), 7]).length ≠ 3) :=
  ⟨(fix_columns_row_spec 3 [(5 : ℚ), 7]).1,
    by
      have h := (fix_columns_row_spec 3 [(5 : ℚ), 7]).2.1 2 (by norm_num)
      simpa using h,
    (fix_columns_row_spec 3 [(5 : ℚ), 7]).2.2⟩

/-- C9 counterexample: a job whose data needs no quantization (uint8
source, 8-bit target, maximum 255) and whose rules supply no value range
reaches manifest construction with `value_range = None`, so the manifest
step fails and no value range is recorded, contradicting the claim that
every job's manifest records one. -/
theorem value_range_missing_unquantized :
    choose_value_range (needs_quantization false 8 8 255) none 0 255 = none := by
  rfl

/-- C9 (amended): a quantized job without a supplied range gets the range
computed from the data as `[min, max]` and recorded; the value range that
reaches the manifest exists exactly when the job is quantized or a range
was supplied, so a job that is neither quantized nor given a range fails
at manifest construction instead of recording one. -/
theorem choose_value_range_policy (vr : Option (ℚ × ℚ)) (dmin dmax : ℚ) (n : Bool) :
    ((choose_value_range n vr dmin dmax).isSome = true
      ↔ (n = true ∨ vr.isSome = true))
    ∧ (n = true → vr = none → choose_value_range n vr dmin dmax = some (dmin, dmax)) := by
  cases n <;> cases vr <;> simp [choose_value_range]

/-- C9 witness: a quantized job with no supplied range records the data
range. -/
theorem choose_value_range_policy_witness :
    choose_value_range true none 0 5 = some (0, 5) :=
  (choose_value_range_policy none 0 5 true).2 rfl rfl

end Videoparquet
